import Mathlib

/-!
Verification of the inline-completion orchestration layer of
`src/components/CodeiumEditor/CompletionProvider.ts` and of the
offset-translation utilities it relies on.

Editor text is modelled as a list of UTF-16 code units (natural numbers
below 0x10000).  The provider's side effects (status/message callbacks,
console warnings, the network call) are modelled as an explicit event
trace, and the network outcome is an explicit input to the run.
-/

namespace CodeiumVerify

/-- Modelled from the spec: a UTF-16 high surrogate code unit
(`src/utils/utf.ts` is not among the provided sources; §4.1 of the spec
is the contract being modelled). -/
def isHighSurrogate (c : Nat) : Bool := decide (0xD800 ≤ c ∧ c ≤ 0xDBFF)

/-- Modelled from the spec: a UTF-16 low surrogate code unit. -/
def isLowSurrogate (c : Nat) : Bool := decide (0xDC00 ≤ c ∧ c ≤ 0xDFFF)

/-- Modelled from the spec: the number of UTF-8 bytes of the code point
held in a single code unit (1 for ≤ 0x7F, 2 for ≤ 0x7FF, 3 otherwise;
a lone surrogate falls in the last bucket, i.e. the 3-byte rule). -/
def codeUnitUtf8Len (c : Nat) : Nat :=
  if c ≤ 0x7F then 1 else if c ≤ 0x7FF then 2 else 3

/-- Modelled from the spec: `numCodeUnitsToNumUtf8Bytes text offset`
counts, for every code unit of `text` up to `offset`, the number of
UTF-8 bytes its code point occupies (4 for a complete surrogate pair
consuming two code units, otherwise `codeUnitUtf8Len`), returning the
running total. -/
def numCodeUnitsToNumUtf8Bytes : List Nat → Nat → Nat
  | _, 0 => 0
  | [], _ + 1 => 0
  | [c], k + 1 => codeUnitUtf8Len c + numCodeUnitsToNumUtf8Bytes [] k
  | c :: l :: rest2, k + 1 =>
    match isHighSurrogate c && isLowSurrogate l, k with
    | true, k2 + 1 => 4 + numCodeUnitsToNumUtf8Bytes rest2 k2
    | _, _ => codeUnitUtf8Len c + numCodeUnitsToNumUtf8Bytes (l :: rest2) k

/-- Modelled from the spec: `numUtf8BytesToNumCodeUnits text byteOffset`
walks the code units of `text` accumulating UTF-8 byte cost, stopping as
soon as the accumulated byte count reaches or exceeds `byteOffset`, and
returns the code-unit index at that point (never splitting a surrogate
pair). -/
def numUtf8BytesToNumCodeUnits : List Nat → Nat → Nat
  | _, 0 => 0
  | [], _ + 1 => 0
  | [c], b + 1 =>
    if b + 1 ≤ codeUnitUtf8Len c then 1
    else 1 + numUtf8BytesToNumCodeUnits [] (b + 1 - codeUnitUtf8Len c)
  | c :: l :: rest2, b + 1 =>
    if isHighSurrogate c && isLowSurrogate l then
      if b + 1 ≤ 4 then 2 else 2 + numUtf8BytesToNumCodeUnits rest2 (b + 1 - 4)
    else
      if b + 1 ≤ codeUnitUtf8Len c then 1
      else 1 + numUtf8BytesToNumCodeUnits (l :: rest2) (b + 1 - codeUnitUtf8Len c)

/-- A code-unit offset lies on a valid code-point boundary of the text:
it is not strictly inside a surrogate pair and not past the end. -/
def isCodePointBoundary : List Nat → Nat → Bool
  | _, 0 => true
  | [], _ + 1 => false
  | [_], k + 1 => isCodePointBoundary [] k
  | c :: l :: rest2, k + 1 =>
    match isHighSurrogate c && isLowSurrogate l, k with
    | true, 0 => false
    | true, k2 + 1 => isCodePointBoundary rest2 k2
    | false, _ => isCodePointBoundary (l :: rest2) k

/-- Status reported through the `setStatus` callback.  Modelled from the
spec: `./Status` is not among the provided sources; §6 lists the values
IDLE, PROCESSING, SUCCESS, ERROR. -/
inductive Status
  | IDLE
  | PROCESSING
  | SUCCESS
  | ERROR
  deriving DecidableEq, Repr

/-- A position in code-unit space.  Modelled from the spec: `./Location`
is not among the provided sources; §3 describes a (line, column) pair. -/
structure Position where
  line : Nat
  col : Nat
  deriving DecidableEq, Repr

/-- An ordered pair of positions, as built by `createInlineCompletionItem`. -/
structure Range where
  startPos : Position
  endPos : Position
  deriving DecidableEq, Repr

/-- The Monaco text model, restricted to the fields the provider reads:
the text (as UTF-16 code units), the language id, and the editor options. -/
structure TextModel where
  text : List Nat
  languageId : String
  tabSize : Nat
  insertSpaces : Bool
  deriving DecidableEq, Repr

/-- Modelled from the spec: `./Document` is not among the provided
sources; §3 describes a read-only view of editor text with a language
identifier and position/offset queries in code-unit space. -/
structure Document where
  text : List Nat
  languageId : String
  deriving DecidableEq, Repr

def Document.ofModel (m : TextModel) : Document :=
  { text := m.text, languageId := m.languageId }

def Document.getText (d : Document) : List Nat := d.text

/-- Modelled from the spec: code-unit offset of a (line, column) position,
scanning the text and counting line breaks. -/
def offsetAtGo : List Nat → Nat → Nat → Nat → Nat
  | _, 0, 0, acc => acc
  | [], _, _, acc => acc
  | _ :: rest, 0, col + 1, acc => offsetAtGo rest 0 col (acc + 1)
  | u :: rest, line + 1, col, acc =>
    if u = 10 then offsetAtGo rest line col (acc + 1)
    else offsetAtGo rest (line + 1) col (acc + 1)

def Document.offsetAt (d : Document) (p : Position) : Nat :=
  offsetAtGo d.text p.line p.col 0

/-- Modelled from the spec: the (line, column) position of a code-unit
offset, scanning the text and counting line breaks. -/
def positionAtGo : List Nat → Nat → Nat → Nat → Position
  | _, 0, line, col => { line := line, col := col }
  | [], _ + 1, line, col => { line := line, col := col }
  | u :: rest, k + 1, line, col =>
    if u = 10 then positionAtGo rest k (line + 1) 0
    else positionAtGo rest k line (col + 1)

def Document.positionAt (d : Document) (off : Nat) : Position :=
  positionAtGo d.text off 0 0

/-- Wire document info built by `getDocumentInfo` (and, for
`otherDocuments`, supplied by the embedder). -/
structure DocumentInfo where
  text : List Nat
  editorLanguage : String
  language : Nat
  cursorOffset : Nat
  lineEnding : String
  deriving DecidableEq, Repr

/-- Request metadata built by `getMetadata`. -/
structure Metadata where
  ideName : String
  ideVersion : String
  extensionName : String
  extensionVersion : String
  apiKey : String
  sessionId : String
  deriving DecidableEq, Repr

structure EditorOptions where
  tabSize : Nat
  insertSpaces : Bool
  deriving DecidableEq, Repr

structure MultilineConfig where
  threshold : Rat
  deriving DecidableEq, Repr

structure GetCompletionsRequest where
  metadata : Metadata
  document : DocumentInfo
  editorOptions : EditorOptions
  otherDocuments : List DocumentInfo
  multilineConfig : Option MultilineConfig
  deriving DecidableEq, Repr

/-- Wire completion payload (`completionItem.completion`). -/
structure Completion where
  text : String
  completionId : String
  deriving DecidableEq, Repr

/-- Wire byte-offset range (`completionItem.range`). -/
structure CompletionRange where
  startOffset : Nat
  endOffset : Nat
  deriving DecidableEq, Repr

/-- Wire completion item; both message fields may be absent. -/
structure CompletionItem where
  completion : Option Completion
  range : Option CompletionRange
  deriving DecidableEq, Repr

/-- Wire response; the item collection may be absent altogether (in
JavaScript an absent field is falsy while a present empty array is
truthy, which is exactly the distinction `Option` captures here). -/
structure GetCompletionsResponse where
  completionItems : Option (List CompletionItem)
  deriving DecidableEq, Repr

/-- The `connect-es` error code `Code.Canceled`. -/
def CodeCanceled : Nat := 1

/-- A rejection of the network call: whether it is a `ConnectError`, its
code, and an arbitrary diagnostic detail. -/
structure ConnError where
  isConnectError : Bool
  code : Nat
  detail : String
  deriving DecidableEq, Repr

/-- How the awaited `client.getCompletions` promise settles. -/
inductive CallOutcome
  | success (resp : GetCompletionsResponse)
  | failure (e : ConnError)
  deriving DecidableEq, Repr

/-- Observable effects of a run, in program order: status/message
callbacks, console warnings, the network call being issued and the
awaited promise settling. -/
inductive Event
  | setStatus (s : Status)
  | setMessage (m : String)
  | warn (m : String)
  | networkCall (req : GetCompletionsRequest) (authHeader : String)
  | networkSettled
  deriving DecidableEq, Repr

/-- The command attached to a returned inline completion. -/
structure CompletionCommand where
  id : String
  title : String
  arguments : List String
  deriving DecidableEq, Repr

/-- `MonacoInlineCompletion`: insert text (duplicated in `text`), range
and the accept command, as set by its constructor. -/
structure MonacoInlineCompletion where
  insertText : String
  text : String
  range : Range
  command : CompletionCommand
  deriving DecidableEq, Repr

def MonacoInlineCompletion.make (insertText : String) (range : Range)
    (completionId : String) : MonacoInlineCompletion :=
  { insertText := insertText
    text := insertText
    range := range
    command :=
      { id := "codeium.acceptCompletion"
        title := "Accept Completion"
        arguments := [completionId, insertText] } }

/-- The `InlineCompletions` wrapper returned on success. -/
structure InlineCompletions where
  items : List MonacoInlineCompletion
  deriving DecidableEq, Repr

def EDITOR_API_KEY : String := "d49954eb-cfba-4992-980f-d8fb37f0e942"

/-- Provider state: session id (fixed at construction), the mutable
cross-file context list, and the constructor arguments. -/
structure MonacoCompletionProvider where
  sessionId : String
  otherDocuments : List DocumentInfo
  apiKey : Option String
  multilineModelThreshold : Option Rat
  deriving DecidableEq, Repr

/-- Ambient collaborators: the language-id mapping table and the
identity helpers (`getCurrentURL`, `getPackageVersion`), all external
to the core per §1 of the spec. -/
structure Env where
  languageIdToEnum : String → Nat
  currentURL : Option String
  packageVersion : Option String

/-- `Language.UNSPECIFIED` of the wire enum. -/
def LanguageUnspecified : Nat := 0

def getMetadata (p : MonacoCompletionProvider) (env : Env) : Metadata :=
  { ideName := "web"
    ideVersion := env.currentURL.getD "unknown"
    extensionName := "@codeium/react-code-editor"
    extensionVersion := env.packageVersion.getD "unknown"
    apiKey := p.apiKey.getD EDITOR_API_KEY
    sessionId := p.sessionId }

def getAuthHeader (p : MonacoCompletionProvider) (env : Env) : String :=
  "Basic " ++ (getMetadata p env).apiKey ++ "-" ++ (getMetadata p env).sessionId

/-- `getDocumentInfo`: document info for the wire plus the console
warning it may emit for an unknown language. -/
def getDocumentInfo (env : Env) (document : Document) (position : Position) :
    DocumentInfo × List Event :=
  let text := document.getText
  let numCodeUnits := document.offsetAt position
  let offset := numCodeUnitsToNumUtf8Bytes text numCodeUnits
  let language := env.languageIdToEnum document.languageId
  let events :=
    if language = LanguageUnspecified then
      [Event.warn ("Unknown language: " ++ document.languageId)]
    else []
  ({ text := text
     editorLanguage := document.languageId
     language := language
     cursorOffset := offset
     lineEnding := "\n" }, events)

/-- The other-documents truncation of `provideInlineCompletions`
(lines 128-134 of the source): `slice(0, 10)` on a copy, with a console
warning when more than 10 were supplied. -/
def includedOtherDocuments (p : MonacoCompletionProvider) :
    List DocumentInfo × List Event :=
  if 10 < p.otherDocuments.length then
    (p.otherDocuments.take 10,
     [Event.warn ("Too many other documents: "
        ++ toString p.otherDocuments.length ++ " (max 10)")])
  else (p.otherDocuments, [])

/-- The request object passed to `client.getCompletions`. -/
def getCompletionsRequest (p : MonacoCompletionProvider) (env : Env)
    (model : TextModel) (position : Position) : GetCompletionsRequest :=
  { metadata := getMetadata p env
    document := (getDocumentInfo env (Document.ofModel model) position).1
    editorOptions := { tabSize := model.tabSize, insertSpaces := model.insertSpaces }
    otherDocuments := (includedOtherDocuments p).1
    multilineConfig :=
      match p.multilineModelThreshold with
      | some t => if t ≠ 0 then some { threshold := t } else none
      | none => none }

/-- Events emitted from the top of `provideInlineCompletions` through
the settling of the awaited network call. -/
def requestPhaseEvents (p : MonacoCompletionProvider) (env : Env)
    (model : TextModel) (position : Position) : List Event :=
  [Event.setStatus Status.PROCESSING, Event.setMessage "Generating completions..."]
    ++ (getDocumentInfo env (Document.ofModel model) position).2
    ++ (includedOtherDocuments p).2
    ++ [Event.networkCall (getCompletionsRequest p env model position) (getAuthHeader p env),
        Event.networkSettled]

/-- `createInlineCompletionItem`: `undefined` when the completion text
or the range is missing, otherwise the wire byte range translated to
code units and then to positions. -/
def createInlineCompletionItem (completionItem : CompletionItem)
    (document : Document) : Option MonacoInlineCompletion :=
  match completionItem.completion, completionItem.range with
  | some completion, some range =>
    let text := document.getText
    let startPosition :=
      document.positionAt (numUtf8BytesToNumCodeUnits text range.startOffset)
    let endPosition :=
      document.positionAt (numUtf8BytesToNumCodeUnits text range.endOffset)
    some (MonacoInlineCompletion.make completion.text
      { startPos := startPosition, endPos := endPosition } completion.completionId)
  | _, _ => none

/-- Result of a run of `provideInlineCompletions`: the returned value,
the emitted events, and the provider state after the call. -/
structure ProvideResult where
  result : Option InlineCompletions
  events : List Event
  provider : MonacoCompletionProvider
  deriving DecidableEq, Repr

/-- Shallow embedding of `provideInlineCompletions`.  The awaited
network outcome is an explicit input; everything else follows the
source line by line. -/
def provideInlineCompletions (p : MonacoCompletionProvider) (env : Env)
    (model : TextModel) (position : Position) (outcome : CallOutcome) :
    ProvideResult :=
  let document := Document.ofModel model
  let pre := requestPhaseEvents p env model position
  match outcome with
  | CallOutcome.failure e =>
    if e.isConnectError && e.code == CodeCanceled then
      { result := none, events := pre, provider := p }
    else
      { result := none
        events := pre ++ [Event.setStatus Status.ERROR,
          Event.setMessage "Something went wrong; please try again."]
        provider := p }
  | CallOutcome.success resp =>
    match resp.completionItems with
    | none =>
      { result := none
        events := pre ++ [Event.setStatus Status.SUCCESS,
          Event.setMessage " No completions were generated"]
        provider := p }
    | some completionItems =>
      let inlineCompletionItems := completionItems.filterMap
        (fun item => createInlineCompletionItem item document)
      let message :=
        if inlineCompletionItems.length = 1 then "Generated 1 completion"
        else "Generated " ++ toString inlineCompletionItems.length ++ " completions"
      { result := some { items := inlineCompletionItems }
        events := pre ++ [Event.setStatus Status.SUCCESS, Event.setMessage message]
        provider := p }

/-- Restructuring of `requestPhaseEvents`: the events before the network
call is issued. -/
def preCallEvents (p : MonacoCompletionProvider) (env : Env)
    (model : TextModel) (position : Position) : List Event :=
  [Event.setStatus Status.PROCESSING, Event.setMessage "Generating completions..."]
    ++ (getDocumentInfo env (Document.ofModel model) position).2
    ++ (includedOtherDocuments p).2

/-- Concrete fixtures used by witnesses and counterexamples. -/
def sampleEnv : Env :=
  { languageIdToEnum := fun _ => 1, currentURL := none, packageVersion := none }

def sampleModel : TextModel :=
  { text := [104, 105], languageId := "python", tabSize := 4, insertSpaces := true }

def samplePos : Position := { line := 0, col := 1 }

def sampleProvider : MonacoCompletionProvider :=
  { sessionId := "react-editor-0", otherDocuments := [], apiKey := none,
    multilineModelThreshold := none }

def sampleOtherDoc : DocumentInfo :=
  { text := [97], editorLanguage := "python", language := 1, cursorOffset := 0,
    lineEnding := "\n" }

def provider15 : MonacoCompletionProvider :=
  { sampleProvider with otherDocuments := List.replicate 15 sampleOtherDoc }

def providerThresh2 : MonacoCompletionProvider :=
  { sampleProvider with multilineModelThreshold := some 2 }

def itemA : CompletionItem :=
  { completion := some { text := "foo", completionId := "id-1" },
    range := some { startOffset := 0, endOffset := 0 } }

def itemB : CompletionItem :=
  { completion := some { text := "bar", completionId := "id-2" }, range := none }
theorem codeUnitUtf8Len_pos (c : Nat) : 1 ≤ codeUnitUtf8Len c := by
  unfold codeUnitUtf8Len
  split
  · exact Nat.le_refl 1
  · split
    · omega
    · omega

theorem encode_zero (text : List Nat) : numCodeUnitsToNumUtf8Bytes text 0 = 0 := by
  cases text with
  | nil => rfl
  | cons c rest => cases rest <;> rfl

theorem decode_zero (text : List Nat) : numUtf8BytesToNumCodeUnits text 0 = 0 := by
  cases text with
  | nil => rfl
  | cons c rest => cases rest <;> rfl

theorem decode_nil (b : Nat) : numUtf8BytesToNumCodeUnits [] b = 0 := by
  cases b <;> rfl

theorem encode_pair (c l : Nat) (rest2 : List Nat) (k2 : Nat)
    (hcl : (isHighSurrogate c && isLowSurrogate l) = true) :
    numCodeUnitsToNumUtf8Bytes (c :: l :: rest2) (k2 + 1 + 1)
      = 4 + numCodeUnitsToNumUtf8Bytes rest2 k2 := by
  simp only [numCodeUnitsToNumUtf8Bytes, hcl]

theorem encode_other (c l : Nat) (rest2 : List Nat) (k : Nat)
    (hcl : (isHighSurrogate c && isLowSurrogate l) = false) :
    numCodeUnitsToNumUtf8Bytes (c :: l :: rest2) (k + 1)
      = codeUnitUtf8Len c + numCodeUnitsToNumUtf8Bytes (l :: rest2) k := by
  cases k <;> simp only [numCodeUnitsToNumUtf8Bytes, hcl]

theorem encode_single (c : Nat) (k : Nat) :
    numCodeUnitsToNumUtf8Bytes [c] (k + 1)
      = codeUnitUtf8Len c + numCodeUnitsToNumUtf8Bytes [] k := by
  rfl

theorem decode_pair (c l : Nat) (rest2 : List Nat) (b : Nat) (hb : 1 ≤ b)
    (hcl : (isHighSurrogate c && isLowSurrogate l) = true) :
    numUtf8BytesToNumCodeUnits (c :: l :: rest2) b
      = if b ≤ 4 then 2 else 2 + numUtf8BytesToNumCodeUnits rest2 (b - 4) := by
  cases b with
  | zero => omega
  | succ b2 => simp only [numUtf8BytesToNumCodeUnits, hcl, if_true]

theorem decode_other (c l : Nat) (rest2 : List Nat) (b : Nat) (hb : 1 ≤ b)
    (hcl : (isHighSurrogate c && isLowSurrogate l) = false) :
    numUtf8BytesToNumCodeUnits (c :: l :: rest2) b
      = if b ≤ codeUnitUtf8Len c then 1
        else 1 + numUtf8BytesToNumCodeUnits (l :: rest2) (b - codeUnitUtf8Len c) := by
  cases b with
  | zero => omega
  | succ b2 => simp only [numUtf8BytesToNumCodeUnits, hcl, Bool.false_eq_true, if_false]

theorem decode_single (c : Nat) (b : Nat) (hb : 1 ≤ b) :
    numUtf8BytesToNumCodeUnits [c] b
      = if b ≤ codeUnitUtf8Len c then 1
        else 1 + numUtf8BytesToNumCodeUnits [] (b - codeUnitUtf8Len c) := by
  cases b with
  | zero => omega
  | succ b2 => simp only [numUtf8BytesToNumCodeUnits]

theorem boundary_pair (c l : Nat) (rest2 : List Nat) (k2 : Nat)
    (hcl : (isHighSurrogate c && isLowSurrogate l) = true) :
    isCodePointBoundary (c :: l :: rest2) (k2 + 1 + 1)
      = isCodePointBoundary rest2 k2 := by
  simp only [isCodePointBoundary, hcl]

theorem boundary_pair_cut (c l : Nat) (rest2 : List Nat)
    (hcl : (isHighSurrogate c && isLowSurrogate l) = true) :
    isCodePointBoundary (c :: l :: rest2) (0 + 1) = false := by
  simp only [isCodePointBoundary, hcl]

theorem boundary_other (c l : Nat) (rest2 : List Nat) (k : Nat)
    (hcl : (isHighSurrogate c && isLowSurrogate l) = false) :
    isCodePointBoundary (c :: l :: rest2) (k + 1)
      = isCodePointBoundary (l :: rest2) k := by
  cases k <;> simp only [isCodePointBoundary, hcl]

theorem boundary_single (c : Nat) (k : Nat) :
    isCodePointBoundary [c] (k + 1) = isCodePointBoundary [] k := by
  rfl

theorem encode_cons_pos (c : Nat) (rest : List Nat) (k : Nat) :
    1 ≤ numCodeUnitsToNumUtf8Bytes (c :: rest) (k + 1) := by
  have hlen := codeUnitUtf8Len_pos c
  cases rest with
  | nil =>
    rw [encode_single]
    omega
  | cons l rest2 =>
    cases hcl : isHighSurrogate c && isLowSurrogate l with
    | false =>
      rw [encode_other c l rest2 k hcl]
      omega
    | true =>
      cases k with
      | zero =>
        simp only [numCodeUnitsToNumUtf8Bytes, hcl]
        omega
      | succ k2 =>
        rw [encode_pair c l rest2 k2 hcl]
        omega

theorem boundary_nil (k : Nat) (h : isCodePointBoundary [] k = true) : k = 0 := by
  cases k with
  | zero => rfl
  | succ k2 => simp [isCodePointBoundary] at h

theorem boundary_encode_zero (text : List Nat) (k : Nat)
    (hb : isCodePointBoundary text k = true)
    (he : numCodeUnitsToNumUtf8Bytes text k = 0) : k = 0 := by
  cases text with
  | nil => exact boundary_nil k hb
  | cons c rest =>
    cases k with
    | zero => rfl
    | succ k2 =>
      have := encode_cons_pos c rest k2
      omega

/-- For every text and every code-unit offset on a valid code-point
boundary, translating the offset to UTF-8 bytes and back is the
identity. -/
theorem utf_roundtrip : ∀ (text : List Nat) (offset : Nat),
    isCodePointBoundary text offset = true →
    numUtf8BytesToNumCodeUnits text (numCodeUnitsToNumUtf8Bytes text offset) = offset := by
  intro text offset
  induction text, offset using isCodePointBoundary.induct with
  | case1 text =>
    intro _
    simp [encode_zero, decode_zero]
  | case2 k =>
    intro h
    simp [isCodePointBoundary] at h
  | case3 c k ih =>
    -- single trailing code unit
    intro h
    simp only [Nat.succ_eq_add_one] at *
    rw [boundary_single] at h
    have hk : k = 0 := boundary_nil k h
    subst hk
    have hlen := codeUnitUtf8Len_pos c
    rw [encode_single, encode_zero, Nat.add_zero]
    rw [decode_single c (codeUnitUtf8Len c) (by omega)]
    rw [if_pos (by omega)]
  | case4 c l rest2 hcl =>
    -- offset 1 strictly inside a surrogate pair: boundary is false
    intro h
    simp only [Nat.succ_eq_add_one] at h
    rw [boundary_pair_cut c l rest2 hcl] at h
    exact absurd h (by simp)
  | case5 c l rest2 k2 hcl ih =>
    -- surrogate pair consumed whole
    intro h
    simp only [Nat.succ_eq_add_one] at *
    rw [boundary_pair c l rest2 k2 hcl] at h
    rw [encode_pair c l rest2 k2 hcl]
    rcases Nat.eq_zero_or_pos (numCodeUnitsToNumUtf8Bytes rest2 k2) with h0 | hpos
    · have hk0 : k2 = 0 := boundary_encode_zero rest2 k2 h h0
      subst hk0
      rw [h0]
      rw [decode_pair c l rest2 (4 + 0) (by omega) hcl]
      rw [if_pos (by omega)]
    · rw [decode_pair c l rest2 _ (by omega) hcl]
      rw [if_neg (by omega)]
      have harg : 4 + numCodeUnitsToNumUtf8Bytes rest2 k2 - 4
          = numCodeUnitsToNumUtf8Bytes rest2 k2 := by omega
      rw [harg, ih h]
      omega
  | case6 c l rest2 k hcl ih =>
    -- leading unit is not the start of a surrogate pair
    intro h
    simp only [Nat.succ_eq_add_one] at *
    rw [boundary_other c l rest2 k hcl] at h
    have hlen := codeUnitUtf8Len_pos c
    rw [encode_other c l rest2 k hcl]
    rcases Nat.eq_zero_or_pos (numCodeUnitsToNumUtf8Bytes (l :: rest2) k) with h0 | hpos
    · have hk0 : k = 0 := boundary_encode_zero (l :: rest2) k h h0
      subst hk0
      rw [h0]
      rw [decode_other c l rest2 (codeUnitUtf8Len c + 0) (by omega) hcl]
      rw [if_pos (by omega)]
    · rw [decode_other c l rest2 _ (by omega) hcl]
      rw [if_neg (by omega)]
      have harg : codeUnitUtf8Len c + numCodeUnitsToNumUtf8Bytes (l :: rest2) k - codeUnitUtf8Len c
          = numCodeUnitsToNumUtf8Bytes (l :: rest2) k := by omega
      rw [harg, ih h]
      omega


theorem getDocumentInfo_snd (env : Env) (document : Document) (position : Position) :
    (getDocumentInfo env document position).2
      = if env.languageIdToEnum document.languageId = LanguageUnspecified then
          [Event.warn ("Unknown language: " ++ document.languageId)]
        else [] := rfl

theorem includedOtherDocuments_fst (p : MonacoCompletionProvider) :
    (includedOtherDocuments p).1 = p.otherDocuments.take 10 := by
  unfold includedOtherDocuments
  split
  · rfl
  · rename_i hle
    rw [List.take_of_length_le (by omega)]

theorem includedOtherDocuments_snd (p : MonacoCompletionProvider) :
    (includedOtherDocuments p).2
      = if 10 < p.otherDocuments.length then
          [Event.warn ("Too many other documents: "
            ++ toString p.otherDocuments.length ++ " (max 10)")]
        else [] := by
  unfold includedOtherDocuments
  split
  · rfl
  · rfl


theorem requestPhase_decomp (p : MonacoCompletionProvider) (env : Env)
    (model : TextModel) (position : Position) :
    requestPhaseEvents p env model position
      = preCallEvents p env model position
        ++ [Event.networkCall (getCompletionsRequest p env model position)
              (getAuthHeader p env),
            Event.networkSettled] := rfl

theorem setStatus_mem_warn_ite (s : Status) (m : String) (c : Prop) [Decidable c] :
    (Event.setStatus s ∈ (if c then [Event.warn m] else ([] : List Event))) = False := by
  split <;> simp

theorem status_in_preCall (p : MonacoCompletionProvider) (env : Env)
    (model : TextModel) (position : Position) (s : Status)
    (h : Event.setStatus s ∈ preCallEvents p env model position) :
    s = Status.PROCESSING := by
  simp only [preCallEvents, getDocumentInfo_snd, includedOtherDocuments_snd,
    List.mem_append, setStatus_mem_warn_ite, or_false, List.mem_cons,
    List.not_mem_nil, Event.setStatus.injEq] at h
  simpa using h

theorem status_in_requestPhase (p : MonacoCompletionProvider) (env : Env)
    (model : TextModel) (position : Position) (s : Status)
    (h : Event.setStatus s ∈ requestPhaseEvents p env model position) :
    s = Status.PROCESSING := by
  rw [requestPhase_decomp] at h
  rcases List.mem_append.mp h with h1 | h2
  · exact status_in_preCall p env model position s h1
  · simp at h2

theorem provide_events_shape (p : MonacoCompletionProvider) (env : Env)
    (model : TextModel) (position : Position) (outcome : CallOutcome) :
    ∃ tail, (provideInlineCompletions p env model position outcome).events
      = requestPhaseEvents p env model position ++ tail := by
  cases outcome with
  | failure e =>
    by_cases hc : (e.isConnectError && e.code == CodeCanceled) = true
    · exact ⟨[], by simp [provideInlineCompletions, hc]⟩
    · exact ⟨[Event.setStatus Status.ERROR,
        Event.setMessage "Something went wrong; please try again."],
        by simp [provideInlineCompletions, hc]⟩
  | success resp =>
    rcases resp with ⟨items⟩
    cases items with
    | none =>
      exact ⟨[Event.setStatus Status.SUCCESS,
        Event.setMessage " No completions were generated"],
        by simp [provideInlineCompletions]⟩
    | some l =>
      refine ⟨[Event.setStatus Status.SUCCESS, Event.setMessage
        (if (List.filterMap (fun item => createInlineCompletionItem item
              (Document.ofModel model)) l).length = 1 then
          "Generated 1 completion"
        else
          "Generated " ++ toString (List.filterMap (fun item =>
            createInlineCompletionItem item (Document.ofModel model)) l).length
            ++ " completions")], ?_⟩
      simp [provideInlineCompletions]

theorem provide_provider_eq (p : MonacoCompletionProvider) (env : Env)
    (model : TextModel) (position : Position) (outcome : CallOutcome) :
    (provideInlineCompletions p env model position outcome).provider = p := by
  cases outcome with
  | failure e =>
    by_cases hc : (e.isConnectError && e.code == CodeCanceled) = true
    · simp [provideInlineCompletions, hc]
    · simp [provideInlineCompletions, hc]
  | success resp =>
    rcases resp with ⟨items⟩
    cases items with
    | none => simp [provideInlineCompletions]
    | some l => simp [provideInlineCompletions]

theorem createItem_isSome (item : CompletionItem) (d : Document) :
    (createInlineCompletionItem item d).isSome
      = (item.completion.isSome && item.range.isSome) := by
  rcases item with ⟨c, r⟩
  cases c <;> cases r <;> simp [createInlineCompletionItem]

theorem filterMap_length_eq_filter (items : List CompletionItem) (d : Document) :
    (items.filterMap (fun item => createInlineCompletionItem item d)).length
      = (items.filter (fun item => item.completion.isSome && item.range.isSome)).length := by
  induction items with
  | nil => rfl
  | cons item rest ih =>
    have h := createItem_isSome item d
    cases hopt : createInlineCompletionItem item d with
    | none =>
      rw [hopt] at h
      simp only [List.filterMap_cons, List.filter_cons, hopt, ← h, Option.isSome_none,
        Bool.false_eq_true, if_false]
      exact ih
    | some v =>
      rw [hopt] at h
      simp only [List.filterMap_cons, List.filter_cons, hopt, ← h, Option.isSome_some,
        if_true, List.length_cons]
      omega

/-- C7: for every text and every code-unit offset on a valid code-point
boundary, encoding the offset to UTF-8 bytes and decoding it back is the
identity. -/
theorem claim_C7_utf_offset_roundtrip (text : List Nat) (offset : Nat)
    (hboundary : isCodePointBoundary text offset = true) :
    numUtf8BytesToNumCodeUnits text (numCodeUnitsToNumUtf8Bytes text offset) = offset :=
  utf_roundtrip text offset hboundary

theorem claim_C7_witness :
    isCodePointBoundary [65, 0xD83D, 0xDE00, 233] 3 = true ∧
    numUtf8BytesToNumCodeUnits [65, 0xD83D, 0xDE00, 233]
      (numCodeUnitsToNumUtf8Bytes [65, 0xD83D, 0xDE00, 233] 3) = 3 :=
  ⟨by decide, claim_C7_utf_offset_roundtrip [65, 0xD83D, 0xDE00, 233] 3 (by decide)⟩

/-- C2: when the network call rejects with a cancellation (a ConnectError
with code Canceled), `provideInlineCompletions` returns no result, raises
nothing, and reports no further status: the only status ever reported in
the run is PROCESSING, so ERROR is never reported. -/
theorem claim_C2_cancellation_silent (p : MonacoCompletionProvider) (env : Env)
    (model : TextModel) (position : Position) (e : ConnError)
    (hcancel : (e.isConnectError && e.code == CodeCanceled) = true) :
    (provideInlineCompletions p env model position (CallOutcome.failure e)).result = none ∧
    (provideInlineCompletions p env model position (CallOutcome.failure e)).events
      = requestPhaseEvents p env model position ∧
    ∀ s : Status,
      Event.setStatus s
          ∈ (provideInlineCompletions p env model position (CallOutcome.failure e)).events
        → s = Status.PROCESSING := by
  have hev : (provideInlineCompletions p env model position (CallOutcome.failure e)).events
      = requestPhaseEvents p env model position := by
    simp [provideInlineCompletions, hcancel]
  refine ⟨by simp [provideInlineCompletions, hcancel], hev, ?_⟩
  intro s hs
  rw [hev] at hs
  exact status_in_requestPhase p env model position s hs

theorem claim_C2_witness :
    (provideInlineCompletions sampleProvider sampleEnv sampleModel samplePos
        (CallOutcome.failure { isConnectError := true, code := 1, detail := "canceled" })).result
      = none :=
  (claim_C2_cancellation_silent sampleProvider sampleEnv sampleModel samplePos
    { isConnectError := true, code := 1, detail := "canceled" } (by decide)).1

/-- C5: when the network call fails for any non-cancellation reason, the
run reports status ERROR with the fixed generic message, returns no
result, and its outcome does not depend on the underlying error beyond
the cancellation test (nothing about the cause is surfaced). -/
theorem claim_C5_error_generic (p : MonacoCompletionProvider) (env : Env)
    (model : TextModel) (position : Position) (e : ConnError)
    (hnc : (e.isConnectError && e.code == CodeCanceled) = false) :
    (provideInlineCompletions p env model position (CallOutcome.failure e)).result = none ∧
    (provideInlineCompletions p env model position (CallOutcome.failure e)).events
      = requestPhaseEvents p env model position
        ++ [Event.setStatus Status.ERROR,
            Event.setMessage "Something went wrong; please try again."] ∧
    ∀ e2 : ConnError, (e2.isConnectError && e2.code == CodeCanceled) = false →
      provideInlineCompletions p env model position (CallOutcome.failure e2)
        = provideInlineCompletions p env model position (CallOutcome.failure e) := by
  refine ⟨?_, ?_, ?_⟩
  · simp [provideInlineCompletions, hnc]
  · simp [provideInlineCompletions, hnc]
  · intro e2 h2
    simp [provideInlineCompletions, hnc, h2]

theorem claim_C5_witness :
    (provideInlineCompletions sampleProvider sampleEnv sampleModel samplePos
        (CallOutcome.failure { isConnectError := false, code := 13, detail := "boom" })).result
      = none ∧
    Event.setStatus Status.ERROR
      ∈ (provideInlineCompletions sampleProvider sampleEnv sampleModel samplePos
          (CallOutcome.failure { isConnectError := false, code := 13, detail := "boom" })).events := by
  have h := claim_C5_error_generic sampleProvider sampleEnv sampleModel samplePos
    { isConnectError := false, code := 13, detail := "boom" } (by decide)
  refine ⟨h.1, ?_⟩
  rw [h.2.1]
  simp

/-- C3: the request sent on the wire carries exactly the first 10
auxiliary documents in their original order (all of them when 10 or
fewer are supplied), never more than 10, no error is raised, and a
console warning is emitted whenever more than 10 were supplied. -/
theorem claim_C3_other_documents_cap (p : MonacoCompletionProvider) (env : Env)
    (model : TextModel) (position : Position) (outcome : CallOutcome) :
    (getCompletionsRequest p env model position).otherDocuments
      = p.otherDocuments.take 10 ∧
    (getCompletionsRequest p env model position).otherDocuments.length ≤ 10 ∧
    Event.networkCall (getCompletionsRequest p env model position) (getAuthHeader p env)
      ∈ (provideInlineCompletions p env model position outcome).events ∧
    (10 < p.otherDocuments.length →
      Event.warn ("Too many other documents: "
          ++ toString p.otherDocuments.length ++ " (max 10)")
        ∈ (provideInlineCompletions p env model position outcome).events) := by
  have hdocs : (getCompletionsRequest p env model position).otherDocuments
      = p.otherDocuments.take 10 := by
    simp [getCompletionsRequest, includedOtherDocuments_fst]
  obtain ⟨tail, htail⟩ := provide_events_shape p env model position outcome
  refine ⟨hdocs, ?_, ?_, ?_⟩
  · rw [hdocs, List.length_take]
    omega
  · rw [htail, requestPhase_decomp]
    simp
  · intro hgt
    rw [htail, requestPhase_decomp]
    simp [preCallEvents, includedOtherDocuments_snd, hgt]

theorem claim_C3_witness :
    10 < provider15.otherDocuments.length ∧
    (getCompletionsRequest provider15 sampleEnv sampleModel samplePos).otherDocuments
      = provider15.otherDocuments.take 10 ∧
    Event.warn ("Too many other documents: "
        ++ toString provider15.otherDocuments.length ++ " (max 10)")
      ∈ (provideInlineCompletions provider15 sampleEnv sampleModel samplePos
          (CallOutcome.success { completionItems := none })).events := by
  have h := claim_C3_other_documents_cap provider15 sampleEnv sampleModel samplePos
    (CallOutcome.success { completionItems := none })
  exact ⟨by decide, h.1, h.2.2.2 (by decide)⟩

/-- C4: on a successful response with a present item list, every item
whose completion text or range is missing maps to "unmappable" and is
dropped, the remaining items are mapped and returned in order, and the
surviving count equals the number of well-formed items (one malformed
item never fails the whole response). -/
theorem claim_C4_malformed_items_dropped (p : MonacoCompletionProvider) (env : Env)
    (model : TextModel) (position : Position) (items : List CompletionItem) :
    (provideInlineCompletions p env model position
        (CallOutcome.success { completionItems := some items })).result
      = some { items := (items.filterMap
          (fun item => createInlineCompletionItem item (Document.ofModel model))) } ∧
    (∀ item : CompletionItem,
      createInlineCompletionItem item (Document.ofModel model) = none
        ↔ (item.completion = none ∨ item.range = none)) ∧
    (items.filterMap
        (fun item => createInlineCompletionItem item (Document.ofModel model))).length
      = (items.filter
          (fun item => item.completion.isSome && item.range.isSome)).length := by
  refine ⟨by simp [provideInlineCompletions], ?_,
    filterMap_length_eq_filter items (Document.ofModel model)⟩
  intro item
  rcases item with ⟨c, r⟩
  cases c <;> cases r <;> simp [createInlineCompletionItem]

theorem claim_C4_witness :
    ((provideInlineCompletions sampleProvider sampleEnv sampleModel samplePos
        (CallOutcome.success { completionItems := some [itemA, itemB] })).result.map
      (fun r => r.items.length)) = some 1 := by
  rw [(claim_C4_malformed_items_dropped sampleProvider sampleEnv sampleModel samplePos
    [itemA, itemB]).1]
  decide

/-- C6: on a successful response with a present item list, the success
message reflects the surviving item count with singular wording for
exactly one item and plural wording (including the count) otherwise. -/
theorem claim_C6_message_wording (p : MonacoCompletionProvider) (env : Env)
    (model : TextModel) (position : Position) (items : List CompletionItem) :
    (provideInlineCompletions p env model position
        (CallOutcome.success { completionItems := some items })).events
      = requestPhaseEvents p env model position
        ++ [Event.setStatus Status.SUCCESS,
            Event.setMessage
              (if (items.filterMap (fun item => createInlineCompletionItem item
                    (Document.ofModel model))).length = 1
               then "Generated 1 completion"
               else "Generated "
                 ++ toString (items.filterMap (fun item =>
                      createInlineCompletionItem item (Document.ofModel model))).length
                 ++ " completions")] := by
  simp [provideInlineCompletions]

/-- C1 counterexample: with a present but empty item collection the
function does not return "no result": it returns a result holding an
empty item list. -/
theorem claim_C1_counterexample :
    (provideInlineCompletions sampleProvider sampleEnv sampleModel samplePos
        (CallOutcome.success { completionItems := some [] })).result
      = some { items := [] } ∧
    ¬ (provideInlineCompletions sampleProvider sampleEnv sampleModel samplePos
        (CallOutcome.success { completionItems := some [] })).result = none :=
  ⟨rfl, by decide⟩

/-- C1 amended: when the item collection is absent the run reports
SUCCESS with the " No completions were generated" message and returns no
result; when the collection is present but empty the run reports SUCCESS
with "Generated 0 completions" and returns a result with an empty item
list (not "no result"). -/
theorem claim_C1_amended (p : MonacoCompletionProvider) (env : Env)
    (model : TextModel) (position : Position) :
    ((provideInlineCompletions p env model position
        (CallOutcome.success { completionItems := none })).result = none ∧
     (provideInlineCompletions p env model position
        (CallOutcome.success { completionItems := none })).events
       = requestPhaseEvents p env model position
         ++ [Event.setStatus Status.SUCCESS,
             Event.setMessage " No completions were generated"]) ∧
    ((provideInlineCompletions p env model position
        (CallOutcome.success { completionItems := some [] })).result
       = some { items := [] } ∧
     (provideInlineCompletions p env model position
        (CallOutcome.success { completionItems := some [] })).events
       = requestPhaseEvents p env model position
         ++ [Event.setStatus Status.SUCCESS,
             Event.setMessage "Generated 0 completions"]) := by
  refine ⟨⟨?_, ?_⟩, ?_, ?_⟩
  · simp [provideInlineCompletions]
  · simp [provideInlineCompletions]
  · simp [provideInlineCompletions]
  · simp [provideInlineCompletions]
    decide

/-- C8: in every run, PROCESSING is reported strictly before the network
call is issued, and any terminal status can only come after the call has
settled: the trace decomposes around the call/settle events with only
PROCESSING statuses before them. -/
theorem claim_C8_processing_before_call (p : MonacoCompletionProvider) (env : Env)
    (model : TextModel) (position : Position) (outcome : CallOutcome) :
    ∃ pre post,
      (provideInlineCompletions p env model position outcome).events
        = pre ++ Event.networkCall (getCompletionsRequest p env model position)
            (getAuthHeader p env) :: Event.networkSettled :: post ∧
      Event.setStatus Status.PROCESSING ∈ pre ∧
      ∀ s : Status, Event.setStatus s ∈ pre → s = Status.PROCESSING := by
  obtain ⟨tail, htail⟩ := provide_events_shape p env model position outcome
  refine ⟨preCallEvents p env model position, tail, ?_, ?_, ?_⟩
  · rw [htail, requestPhase_decomp]
    simp [List.append_assoc]
  · simp [preCallEvents]
  · exact fun s hs => status_in_preCall p env model position s hs

/-- C9: a run of `provideInlineCompletions` never mutates the provider's
`otherDocuments` list: truncation happens on a copy, and after every run
the field holds the same elements in the same order as before. -/
theorem claim_C9_otherDocuments_preserved (p : MonacoCompletionProvider) (env : Env)
    (model : TextModel) (position : Position) (outcome : CallOutcome) :
    (provideInlineCompletions p env model position outcome).provider.otherDocuments
      = p.otherDocuments := by
  rw [provide_provider_eq]

/-- C10: the request carries a multiline threshold configuration exactly
when the provider was constructed with a truthy threshold: absent or zero
thresholds yield no `multilineConfig`, and a nonzero threshold t yields
`multilineConfig.threshold = t`. -/
theorem claim_C10_multiline_config (p : MonacoCompletionProvider) (env : Env)
    (model : TextModel) (position : Position) :
    ((p.multilineModelThreshold = none ∨ p.multilineModelThreshold = some 0) →
      (getCompletionsRequest p env model position).multilineConfig = none) ∧
    (∀ t : Rat, p.multilineModelThreshold = some t → t ≠ 0 →
      (getCompletionsRequest p env model position).multilineConfig
        = some { threshold := t }) ∧
    ((getCompletionsRequest p env model position).multilineConfig ≠ none
      ↔ ∃ t : Rat, p.multilineModelThreshold = some t ∧ t ≠ 0) := by
  refine ⟨?_, ?_, ?_⟩
  · rintro (h | h) <;> simp [getCompletionsRequest, h]
  · intro t ht hne
    simp [getCompletionsRequest, ht, hne]
  · cases hth : p.multilineModelThreshold with
    | none => simp [getCompletionsRequest, hth]
    | some t =>
      by_cases ht0 : t = 0
      · subst ht0
        simp [getCompletionsRequest, hth]
      · simp [getCompletionsRequest, hth, ht0]

theorem claim_C10_witness :
    (getCompletionsRequest sampleProvider sampleEnv sampleModel samplePos).multilineConfig
      = none ∧
    (getCompletionsRequest providerThresh2 sampleEnv sampleModel samplePos).multilineConfig
      = some { threshold := 2 } := by
  constructor
  · exact (claim_C10_multiline_config sampleProvider sampleEnv sampleModel samplePos).1
      (Or.inl rfl)
  · exact (claim_C10_multiline_config providerThresh2 sampleEnv sampleModel samplePos).2.1
      2 rfl (by norm_num)

end CodeiumVerify
